import Mathlib

/-!
Verification development for the XNNPACK GEMM partitioner configuration
(`backends/xnnpack/partition/config/gemm_configs.py`).

The graph is embedded shallowly: nodes are natural-number identifiers, the
immutable per-node data (operator kind, target name, parameter-ness) lives in
an environment `Env`, and the data the resolver may mutate (argument lists,
user lists, implicit-q/dq tags, the cached source-partition index) lives in a
state `St` that every stateful operation threads explicitly.

External collaborators of the file under analysis (the quantization
predicates of `quant_utils`, `is_param_node`, `get_source_partitions`,
`check_common_constraints`, `QuantParams.from_weights`,
`is_depthwise_conv`, `format_target_name`) are not part of the analysed
source; they are modelled from the spec at their interfaces, as boolean or
data oracles, below.
-/

/-- One argument of a graph node: a reference to another node, a literal
integer, a literal boolean, a literal integer list, or Python `None`.
Mirrors the argument lists of `torch.fx.Node`. -/
inductive Arg where
  | node (id : Nat)
  | int (v : Int)
  | bool (b : Bool)
  | intList (l : List Int)
  | null
deriving DecidableEq, Repr

/-- Modelled from the spec: the `ConfigPrecisionType` enumeration of
`xnnpack_config.py` (not under the analysed sources), with its three
variants. -/
inductive ConfigPrecisionType where
  | FP32
  | STATIC_QUANT
  | DYNAMIC_QUANT
deriving DecidableEq, Repr

/-- A source partition as produced by `get_source_partitions`: interior
nodes, boundary input nodes, and output nodes. -/
structure SourcePartition where
  nodes : List Nat
  input_nodes : List Nat
  output_nodes : List Nat
deriving DecidableEq, Repr

/-- Modelled from the spec: the result of `QuantParams.from_weights`
(external), reduced to the two fields `ConvolutionConfig.check_constraints`
reads: `per_channel` and `axis`. -/
structure QuantP where
  per_channel : Bool
  axis : Int
deriving DecidableEq, Repr

/-- Which concrete config class the dispatch goes through: `GEMMConfig`
itself, `LinearConfig`, `ConvolutionConfig`, `AddmmConfig` or `MMConfig`.
Dynamic dispatch on `self` in the Python source becomes a match on this
tag. -/
inductive CfgKind where
  | base
  | linear
  | conv
  | addmm
  | mm
deriving DecidableEq, Repr

/-- The per-instance configuration data of a `GEMMConfig`: the argument
indices and fused-activation names fixed by `__init__`, the precision lists,
and the `force_non_static_weights_for_f32_linear` flag. -/
structure Cfg where
  kind : CfgKind
  weight_idx : Nat
  bias_idx : Option Nat
  act_idx : Nat
  fused_acts : List String
  supported : List ConfigPrecisionType
  enabled : List ConfigPrecisionType
  force_non_static_weights_for_f32_linear : Bool

/-- The immutable graph data plus the external oracles. `op` and `target`
are the `torch.fx.Node` fields of the node with the given id; `params` is
the `is_param_node` predicate; `partitions` is the (flattened) result of
`get_source_partitions` for the linear modules; `fuel` bounds the
backward walk of `find_partition_args`, which the source leaves unbounded;
`commonOk`, `depthwise` and `weightQP` are the external
`check_common_constraints`, `is_depthwise_conv` and
`QuantParams.from_weights` oracles, keyed by node id. -/
structure Env where
  op : Nat → String
  target : Nat → String
  params : Nat → Bool
  partitions : List SourcePartition
  fuel : Nat
  commonOk : Nat → Bool
  depthwise : Nat → Bool
  weightQP : Nat → Option QuantP

/-- The mutable part of the program state: per-node argument lists and user
lists (the source transiently rewrites both during addmm adaptation), the
set of nodes tagged by `tag_as_implicit_q_dq`, and `AddmmConfig`'s lazily
cached source-partition index. -/
structure St where
  args : Nat → List Arg
  users : Nat → List Nat
  tags : List Nat
  cache : Option (List SourcePartition)

/-- Pointwise update of a function at one node id; used for the transient
argument/user rewrite of the addmm adaptation. -/
def upd {α : Type} (f : Nat → α) (n : Nat) (a : α) : Nat → α :=
  fun m => if m = n then a else f m

/-- Modelled from the spec: `is_dequant` of `quant_utils`, a node-kind
predicate consumed as a boolean oracle; decided here by target name. -/
def isDequantT (t : String) : Bool :=
  t ∈ ["dequantize_per_tensor", "dequantize_per_tensor_tensor",
       "dequantize_per_channel", "dequantize_per_channel_group",
       "dequantize_affine"]

/-- Modelled from the spec: `is_quant` of `quant_utils`. -/
def isQuantT (t : String) : Bool :=
  t ∈ ["quantize_per_tensor", "quantize_per_tensor_tensor",
       "quantize_per_channel", "quantize_affine"]

/-- Modelled from the spec: `is_per_tensor` of `quant_utils`. -/
def isPerTensorT (t : String) : Bool :=
  t ∈ ["quantize_per_tensor", "dequantize_per_tensor",
       "quantize_per_tensor_tensor", "dequantize_per_tensor_tensor"]

/-- Modelled from the spec: `is_per_channel` of `quant_utils`. -/
def isPerChannelT (t : String) : Bool :=
  t ∈ ["quantize_per_channel", "dequantize_per_channel"]

/-- Modelled from the spec: `is_per_channel_group` of `quant_utils`. -/
def isPerChannelGroupT (t : String) : Bool :=
  t ∈ ["dequantize_per_channel_group"]

/-- Modelled from the spec: `is_affine_qdq` of `quant_utils`. -/
def isAffineT (t : String) : Bool :=
  t ∈ ["quantize_affine", "dequantize_affine"]

/-- Modelled from the spec: `is_dynamic_qdq` of `quant_utils` — the
dynamic-quantization dequantize pattern, an oracle deciding
DYNAMIC_QUANT against STATIC_QUANT; decided here by target name. -/
def isDynamicT (t : String) : Bool :=
  t ∈ ["dequantize_per_tensor_tensor"]

/-- Modelled from the spec: `is_qparam` of `quant_utils` (a "choose
quantization parameters" node). -/
def isQparamT (t : String) : Bool :=
  t ∈ ["choose_qparams", "choose_qparams_per_token_asymmetric"]

/-- `is_dequant` on a node id. -/
def isDequantId (env : Env) (i : Nat) : Bool :=
  env.op i == "call_function" && isDequantT (env.target i)

/-- `is_quant` on a node id. -/
def isQuantId (env : Env) (i : Nat) : Bool :=
  env.op i == "call_function" && isQuantT (env.target i)

/-- `is_per_tensor` on a node id. -/
def isPerTensorId (env : Env) (i : Nat) : Bool :=
  env.op i == "call_function" && isPerTensorT (env.target i)

/-- `is_per_channel` on a node id. -/
def isPerChannelId (env : Env) (i : Nat) : Bool :=
  env.op i == "call_function" && isPerChannelT (env.target i)

/-- `is_per_channel_group` on a node id. -/
def isPerChannelGroupId (env : Env) (i : Nat) : Bool :=
  env.op i == "call_function" && isPerChannelGroupT (env.target i)

/-- `is_affine_qdq` on a node id. -/
def isAffineId (env : Env) (i : Nat) : Bool :=
  env.op i == "call_function" && isAffineT (env.target i)

/-- `is_dynamic_qdq` on a node id. -/
def isDynamicId (env : Env) (i : Nat) : Bool :=
  env.op i == "call_function" && isDynamicT (env.target i)

/-- `is_qparam` on a node id. -/
def isQparamId (env : Env) (i : Nat) : Bool :=
  env.op i == "call_function" && isQparamT (env.target i)

/-- `is_getitem` on a node id. -/
def isGetitemId (env : Env) (i : Nat) : Bool :=
  env.op i == "call_function" && env.target i == "getitem"

/-- Modelled from the spec: `format_target_name` of the canonical
partitioner (external); the targets stored in this embedding are already in
formatted form, so the formatter is the identity. -/
def formatTargetName (t : String) : String := t

/-- `get_input_node(node, idx)`: `node.args[idx]` cast to a node. The
Python code is an unchecked cast; a non-node or missing argument is
modelled as `none` (the source would fail on the subsequent attribute
access of such a value). -/
def getInputNode (args : Nat → List Arg) (n : Nat) (idx : Nat) : Option Nat :=
  match (args n).get? idx with
  | some (Arg.node i) => some i
  | _ => none

/-- Lifts a node-id predicate to the optional result of `getInputNode`. -/
def onNode (p : Nat → Bool) : Option Nat → Bool
  | some i => p i
  | none => false

/-- First-occurrence deduplication, auxiliary. -/
def dedupFirstAux (seen : List Nat) : List Nat → List Nat
  | [] => []
  | a :: l => if a ∈ seen then dedupFirstAux seen l
              else a :: dedupFirstAux (a :: seen) l

/-- First-occurrence deduplication, as `torch.fx` performs for
`Node.all_input_nodes`. -/
def dedupFirst (l : List Nat) : List Nat := dedupFirstAux [] l

/-- The node references occurring in an argument list, in order. -/
def argNodeRefs : List Arg → List Nat
  | [] => []
  | Arg.node i :: l => i :: argNodeRefs l
  | _ :: l => argNodeRefs l

/-- `node.all_input_nodes`: the distinct node references of the node's
argument list, in order of first appearance. -/
def allInputNodes (args : Nat → List Arg) (n : Nat) : List Nat :=
  dedupFirst (argNodeRefs (args n))

/-- `GEMMConfig._detect_precision`: FP32 unless the weight operand is a
dequantize node; then DYNAMIC_QUANT if the activation operand matches the
dynamic-quantization dequantize pattern, else STATIC_QUANT. -/
def detectPrecision (env : Env) (cfg : Cfg) (args : Nat → List Arg) (n : Nat) :
    ConfigPrecisionType :=
  if !(onNode (isDequantId env) (getInputNode args n cfg.weight_idx)) then
    ConfigPrecisionType.FP32
  else if onNode (isDynamicId env) (getInputNode args n cfg.act_idx) then
    ConfigPrecisionType.DYNAMIC_QUANT
  else
    ConfigPrecisionType.STATIC_QUANT

/-- `GEMMConfig._overwrite_precision`: when the detected precision is not
enabled and the enabled list is exactly `[FP32]`, a quantized variant is
overwritten to FP32 (returning the overwrite flag); otherwise the detected
precision is returned unchanged with flag `false`. -/
def overwritePrecision (env : Env) (cfg : Cfg) (args : Nat → List Arg) (n : Nat) :
    Bool × ConfigPrecisionType :=
  let precision := detectPrecision env cfg args n
  if precision ∉ cfg.enabled then
    if cfg.enabled = [ConfigPrecisionType.FP32] then
      if precision = ConfigPrecisionType.STATIC_QUANT ∨
         precision = ConfigPrecisionType.DYNAMIC_QUANT then
        (true, ConfigPrecisionType.FP32)
      else (false, precision)
    else (false, precision)
  else (false, precision)

/-- `GEMMConfig._get_weight_deps` (the base implementation at lines
147-191). FP32: the weight must be a static parameter. Quantized: the
weight operand must be a dequantize node over a static parameter;
per-tensor weight with DYNAMIC_QUANT is rejected; per-channel and
per-channel-group weights require at least two input nodes on the wrapper
and additionally pull in `all_input_nodes[1:3]`. -/
def getWeightDepsBase (env : Env) (cfg : Cfg) (args : Nat → List Arg)
    (n : Nat) (precision : ConfigPrecisionType) : Bool × List Nat :=
  if precision = ConfigPrecisionType.FP32 then
    match getInputNode args n cfg.weight_idx with
    | some w => if env.params w then (true, [w]) else (false, [])
    | none => (false, [])
  else
    match getInputNode args n cfg.weight_idx with
    | none => (false, [])
    | some dq =>
      if !(isDequantId env dq) then (false, [])
      else
        match getInputNode args dq 0 with
        | none => (false, [])
        | some w =>
          if !(env.params w) then (false, [])
          else if isPerTensorId env dq = true ∧
                  precision = ConfigPrecisionType.DYNAMIC_QUANT then
            (false, [])
          else if isPerChannelId env dq || isPerChannelGroupId env dq then
            if (allInputNodes args dq).length < 2 then (false, [])
            else (true, [dq, w] ++ ((allInputNodes args dq).drop 1).take 2)
          else (true, [dq, w])

/-- `_get_weight_deps` with the dynamic dispatch of the source resolved by
config kind: `LinearConfig`, `AddmmConfig` and `MMConfig` first consult the
`force_non_static_weights_for_f32_linear` flag (and, for `LinearConfig`
only, the precision-overwrite flag) before deferring to the base
implementation; `GEMMConfig` and `ConvolutionConfig` use the base one. -/
def getWeightDeps (env : Env) (cfg : Cfg) (args : Nat → List Arg)
    (n : Nat) (precision : ConfigPrecisionType) : Bool × List Nat :=
  match cfg.kind with
  | CfgKind.linear =>
    if precision = ConfigPrecisionType.FP32 ∧
       cfg.force_non_static_weights_for_f32_linear then (true, [])
    else
      let ow := overwritePrecision env cfg args n
      if ow.2 = ConfigPrecisionType.FP32 ∧ ow.1 then (true, [])
      else getWeightDepsBase env cfg args n precision
  | CfgKind.addmm =>
    if precision = ConfigPrecisionType.FP32 ∧
       cfg.force_non_static_weights_for_f32_linear then (true, [])
    else getWeightDepsBase env cfg args n precision
  | CfgKind.mm =>
    if precision = ConfigPrecisionType.FP32 ∧
       cfg.force_non_static_weights_for_f32_linear then (true, [])
    else getWeightDepsBase env cfg args n precision
  | _ => getWeightDepsBase env cfg args n precision

/-- `GEMMConfig._get_bias_deps`: skipped under the non-static-weights
override for FP32; otherwise, when the node has more than two input nodes
and the profile has a bias index, the bias operand (when truthy) must be a
static parameter. -/
def getBiasDeps (env : Env) (cfg : Cfg) (args : Nat → List Arg)
    (n : Nat) (precision : ConfigPrecisionType) : Bool × List Nat :=
  if precision = ConfigPrecisionType.FP32 ∧
     cfg.force_non_static_weights_for_f32_linear then (true, [])
  else if (allInputNodes args n).length > 2 ∧ cfg.bias_idx.isSome then
    match getInputNode args n (cfg.bias_idx.getD 0) with
    | some b => if env.params b then (true, [b]) else (false, [])
    | none => (true, [])
  else (true, [])

/-- Modelled from the spec:
`extract_qdq_affine_op_args_for_decomposed_ops` of `quant_utils`
(external) — the dedicated argument-extraction routine for affine-encoded
quantize ops, repositioning the scale and zero-point operands to argument
positions 1 and 2. -/
def extractAffineArgs (args : Nat → List Arg) (q : Nat) : List Arg :=
  match args q with
  | a0 :: _ :: a2 :: a3 :: _ => [a0, a2, a3]
  | l => l

/-- The argument list `q_input_args` used by `_get_act_deps` at lines
278-280: the quantize node's own arguments, or the affine-decomposed
extraction when the node is affine-encoded. -/
def qArgsOf (env : Env) (args : Nat → List Arg) (q : Nat) : List Arg :=
  if isAffineId env q then extractAffineArgs args q else args q

/-- `GEMMConfig._get_act_deps` (lines 256-298). FP32: empty. Quantized:
the activation operand must be a dequantize node; STATIC_QUANT stops
there; DYNAMIC_QUANT walks dequantize → quantize, requires the quantize
node's operands 1 and 2 to be getitem nodes, and requires the first
getitem's source operand to be a choose-qparams node. -/
def getActDeps (env : Env) (cfg : Cfg) (args : Nat → List Arg)
    (n : Nat) (precision : ConfigPrecisionType) : Bool × List Nat :=
  if precision = ConfigPrecisionType.FP32 then (true, [])
  else
    match getInputNode args n cfg.act_idx with
    | none => (false, [])
    | some dq =>
      if !(isDequantId env dq) then (false, [])
      else if precision = ConfigPrecisionType.STATIC_QUANT then (true, [dq])
      else
        match getInputNode args dq 0 with
        | none => (false, [])
        | some q =>
          if !(isQuantId env q) then (false, [])
          else
            match (qArgsOf env args q).get? 1, (qArgsOf env args q).get? 2 with
            | some (Arg.node g1), some (Arg.node g2) =>
              if !(isGetitemId env g1 && isGetitemId env g2) then (false, [])
              else
                match getInputNode args g1 0 with
                | none => (false, [])
                | some cq =>
                  if isQparamId env cq then (true, [dq, q, g1, g2, cq])
                  else (false, [])
            | _, _ => (false, [])

/-- `GEMMConfig._get_output_deps` (lines 193-232). STATIC_QUANT: the node
must have one user, optionally a fused activation followed (when it has a
single user) by its user, and the final node must be a quantize node.
FP32: a single fused-activation user is pulled in when present, never a
failure. DYNAMIC_QUANT: empty and valid. -/
def getOutputDeps (env : Env) (cfg : Cfg) (users : Nat → List Nat)
    (n : Nat) (precision : ConfigPrecisionType) : Bool × List Nat :=
  if precision = ConfigPrecisionType.STATIC_QUANT then
    match users n with
    | [u] =>
      let fused := env.op u == "call_function" &&
        decide (formatTargetName (env.target u) ∈ cfg.fused_acts)
      let pre : List Nat := if fused then [u] else []
      let nOut := if fused then
          (match users u with | [v] => v | _ => u)
        else u
      if isQuantId env nOut then (true, pre ++ [nOut]) else (false, [])
    | _ => (false, [])
  else if precision = ConfigPrecisionType.FP32 then
    match users n with
    | [u] =>
      if env.op u == "call_function" &&
         decide (formatTargetName (env.target u) ∈ cfg.fused_acts) then
        (true, [u])
      else (true, [])
    | _ => (true, [])
  else (true, [])

/-- The pure result of `GEMMConfig.get_deps` (lines 116-145), computed from
the current argument and user functions: the supported-precision gate, the
overwrite, the four role resolvers in source order (bias, weight,
activation, output), validity as their conjunction and the concatenated
dependency list. -/
def getDepsGenericCore (env : Env) (cfg : Cfg) (args : Nat → List Arg)
    (users : Nat → List Nat) (n : Nat) : Bool × List Nat :=
  let precision := detectPrecision env cfg args n
  if precision ∈ cfg.supported then
    let precision := (overwritePrecision env cfg args n).2
    let rb := getBiasDeps env cfg args n precision
    let rw := getWeightDeps env cfg args n precision
    let ra := getActDeps env cfg args n precision
    let ro := getOutputDeps env cfg users n precision
    (rb.1 && rw.1 && ra.1 && ro.1, rb.2 ++ rw.2 ++ ra.2 ++ ro.2)
  else (false, [])

/-- `GEMMConfig.get_deps` with its side effect: every quantize or
dequantize node of the aggregated dependency list is tagged as an implicit
q/dq node (lines 140-143) before the result is returned. -/
def getDepsGeneric (env : Env) (cfg : Cfg) (st : St) (n : Nat) :
    (Bool × List Nat) × St :=
  let r := getDepsGenericCore env cfg st.args st.users n
  (r, { st with
        tags := st.tags ++
          r.2.filter (fun d => isDequantId env d || isQuantId env d) })

/-- Python truthiness of the optional bias index, as tested by the guard
`self.bias_idx and ...` at line 511: both `None` and `0` are falsy. -/
def pyTruthyIdx : Option Nat → Bool
  | Option.none => false
  | Option.some i => i != 0

/-- The node referenced at position `i` of an argument list, when the
argument exists and is a node reference. -/
def argNodeAt (l : List Arg) (i : Nat) : Option Nat :=
  match l.get? i with
  | some (Arg.node k) => some k
  | _ => none

/-- `find_partition_args` (lines 492-498): walk backwards through
`all_input_nodes[0]` until the current node is a declared boundary input of
the partition or has no inputs. The source's while loop is unbounded; it is
embedded with explicit fuel and agrees with the source on every input on
which the source loop terminates within that fuel. -/
def findPartitionArgsWalk (args : Nat → List Arg) (p : SourcePartition) :
    Nat → Nat → Nat
  | 0, n => n
  | Nat.succ fuel, n =>
    if (allInputNodes args n).length ≠ 0 ∧ n ∉ p.input_nodes then
      match (allInputNodes args n).head? with
      | some m => findPartitionArgsWalk args p fuel m
      | none => n
    else n

/-- `list(set(deps) & set(nodes))`: the members of `deps` that also occur
in `nodes`. Python's set-to-list order is unspecified; the embedding fixes
first-occurrence order, with the same elements. -/
def interList (deps nodes : List Nat) : List Nat :=
  (dedupFirst deps).filter (fun d => decide (d ∈ nodes))

/-- `list(set(deps) | set(nodes))`: all members of either list, with the
same set-order caveat as `interList`. -/
def unionList (deps nodes : List Nat) : List Nat :=
  dedupFirst (deps ++ nodes)

/-- `AddmmConfig.get_deps_from_src_partition` (lines 480-540): capture the
node's arguments and users; compute the fake argument list by the backward
walk; validate it against the partition (the bias clause is guarded by the
Python truthiness of `bias_idx`); on success install the fake arguments
and the partition output's users, run the generic `get_deps`, restore the
original arguments and users, and combine the returned dependencies with
the partition's interior nodes by intersection (override active) or union.
Python indexing/attribute errors on malformed fake arguments are modelled
as a failed membership test. -/
def getDepsFromSrcPartition (env : Env) (cfg : Cfg) (st : St) (n : Nat)
    (p : SourcePartition) : (Bool × List Nat) × St :=
  let old_args := st.args n
  let old_users := st.users n
  let fake_args := old_args.map (fun a =>
    match a with
    | Arg.node i => Arg.node (findPartitionArgsWalk st.args p env.fuel i)
    | a => a)
  let biasBad := pyTruthyIdx cfg.bias_idx = true ∧
    ¬ (onNode (fun b => decide (b ∈ p.nodes))
        (argNodeAt fake_args (cfg.bias_idx.getD 0)) = true)
  let actBad := ¬ (onNode (fun a => decide (a ∈ p.input_nodes))
        (argNodeAt fake_args cfg.act_idx) = true)
  let weightBad := ¬ (onNode (fun w => decide (w ∈ p.nodes ++ p.input_nodes))
        (argNodeAt fake_args cfg.weight_idx) = true)
  let outBad := p.output_nodes.length ≠ 1
  if biasBad ∨ actBad ∨ weightBad ∨ outBad then ((false, []), st)
  else
    let outUsers := match p.output_nodes with
      | o :: _ => st.users o
      | [] => []
    let st1 : St := { st with args := upd st.args n fake_args,
                              users := upd st.users n outUsers }
    let r := getDepsGeneric env cfg st1 n
    let st3 : St := { r.2 with args := upd r.2.args n old_args,
                               users := upd r.2.users n old_users }
    let ret_deps :=
      if cfg.force_non_static_weights_for_f32_linear then
        interList r.1.2 p.nodes
      else unionList r.1.2 p.nodes
    ((r.1.1, ret_deps), st3)

/-- `AddmmConfig.get_deps` (lines 451-478): resolve the cached
source-partition index (computed once from `get_source_partitions`, here
the `partitions` oracle of the environment); select the last partition of
the index containing the node (the source loop keeps overwriting its
variable); dispatch to the source-partition adaptation when one is found,
else to the generic resolution. -/
def addmmGetDeps (env : Env) (cfg : Cfg) (st : St) (n : Nat) :
    (Bool × List Nat) × St :=
  let parts := st.cache.getD env.partitions
  let st0 : St := { st with cache := some parts }
  match parts.reverse.find? (fun p => decide (n ∈ p.nodes)) with
  | some p => getDepsFromSrcPartition env cfg st0 n p
  | none => getDepsGeneric env cfg st0 n

/-- `get_deps` with the dynamic dispatch of the source resolved by config
kind: `AddmmConfig` and `MMConfig` use the source-partition-aware variant,
the other classes the generic one. -/
def getDeps (env : Env) (cfg : Cfg) (st : St) (n : Nat) :
    (Bool × List Nat) × St :=
  match cfg.kind with
  | CfgKind.addmm => addmmGetDeps env cfg st n
  | CfgKind.mm => addmmGetDeps env cfg st n
  | _ => getDepsGeneric env cfg st n

/-- `GEMMConfig.get_node_and_deps` (lines 75-82): the candidate node
followed by every dependency node of `get_deps`, the validity flag
discarded. -/
def getNodeAndDeps (env : Env) (cfg : Cfg) (st : St) (n : Nat) :
    List Nat × St :=
  let r := getDeps env cfg st n
  (n :: r.1.2, r.2)

/-- `GEMMConfig.check_constraints` (lines 67-73): the external common
constraints, then the validity flag of `get_deps` (its node list and state
effect are discarded by the caller-visible boolean). -/
def checkConstraints (env : Env) (cfg : Cfg) (st : St) (n : Nat) : Bool :=
  env.commonOk n && (getDeps env cfg st n).1.1

/-- Reads a literal integer list argument; `cast(List[int], ...)` is an
unchecked cast in the source, so a malformed argument (on which the source
would raise) is modelled by the empty list. -/
def asIntList : Option Arg → List Int
  | some (Arg.intList l) => l
  | _ => []

/-- Reads a literal integer argument, defaulting as `asIntList`. -/
def asInt : Option Arg → Int
  | some (Arg.int v) => v
  | _ => 0

/-- Reads a literal boolean argument, defaulting as `asIntList`. -/
def asBool : Option Arg → Bool
  | some (Arg.bool b) => b
  | _ => false

/-- `ConvolutionConfig.check_constraints` (lines 356-409): the generic
check first; then reject stride lists longer than 2; reject DYNAMIC_QUANT
convolutions with stride length different from 2 or classified depthwise;
reject transposed convolutions with non-zero output padding; reject
transposed per-channel-quantized convolutions with groups above 1 or a
quantization axis other than 1. -/
def convCheckConstraints (env : Env) (cfg : Cfg) (st : St) (n : Nat) : Bool :=
  if !(checkConstraints env cfg st n) then false
  else
    let conv_stride := asIntList ((st.args n).get? 3)
    if conv_stride.length > 2 then false
    else
      let kernelQP := match getInputNode st.args n 1 with
        | some k => env.weightQP k
        | none => none
      let groups := asInt ((st.args n).get? 8)
      let is_transpose := asBool ((st.args n).get? 6)
      if detectPrecision env cfg st.args n = ConfigPrecisionType.DYNAMIC_QUANT ∧
         (conv_stride.length ≠ 2 ∨ env.depthwise n = true) then false
      else if is_transpose = true ∧
          (asIntList ((st.args n).get? 7)).any (fun v => decide (v ≠ 0)) then
        false
      else if is_transpose = true ∧
          (match kernelQP with
           | some qp => qp.per_channel && (decide (groups > 1) ||
               decide (qp.axis ≠ 1))
           | none => false) = true then
        false
      else true

/-- The `LinearConfig` profile: weight at 1, bias at 2, activation at 0,
fusible relu and hardtanh, all three precisions supported. -/
def linearConfig (enabled : List ConfigPrecisionType) (force : Bool) : Cfg :=
  { kind := CfgKind.linear, weight_idx := 1, bias_idx := some 2,
    act_idx := 0, fused_acts := ["relu.default", "hardtanh.default"],
    supported := [ConfigPrecisionType.DYNAMIC_QUANT, ConfigPrecisionType.FP32,
                  ConfigPrecisionType.STATIC_QUANT],
    enabled := enabled, force_non_static_weights_for_f32_linear := force }

/-- The `ConvolutionConfig` profile. -/
def convConfig (enabled : List ConfigPrecisionType) (force : Bool) : Cfg :=
  { kind := CfgKind.conv, weight_idx := 1, bias_idx := some 2,
    act_idx := 0, fused_acts := ["relu.default", "hardtanh.default"],
    supported := [ConfigPrecisionType.FP32, ConfigPrecisionType.STATIC_QUANT,
                  ConfigPrecisionType.DYNAMIC_QUANT],
    enabled := enabled, force_non_static_weights_for_f32_linear := force }

/-- The `AddmmConfig` profile: weight at 2, bias at 0, activation at 1. -/
def addmmConfig (enabled : List ConfigPrecisionType) (force : Bool) : Cfg :=
  { kind := CfgKind.addmm, weight_idx := 2, bias_idx := some 0,
    act_idx := 1, fused_acts := ["relu.default", "hardtanh.default"],
    supported := [ConfigPrecisionType.FP32, ConfigPrecisionType.STATIC_QUANT,
                  ConfigPrecisionType.DYNAMIC_QUANT],
    enabled := enabled, force_non_static_weights_for_f32_linear := force }

/-- The `MMConfig` profile: inherits `AddmmConfig` and then clears the bias
index and resets weight to 1 and activation to 0. -/
def mmConfig (enabled : List ConfigPrecisionType) (force : Bool) : Cfg :=
  { kind := CfgKind.mm, weight_idx := 1, bias_idx := none,
    act_idx := 0, fused_acts := ["relu.default", "hardtanh.default"],
    supported := [ConfigPrecisionType.FP32, ConfigPrecisionType.STATIC_QUANT,
                  ConfigPrecisionType.DYNAMIC_QUANT],
    enabled := enabled, force_non_static_weights_for_f32_linear := force }

/-- The configuration with the non-static-weights override set to the
given value and all other fields unchanged. -/
def setForce (cfg : Cfg) (b : Bool) : Cfg :=
  { cfg with force_non_static_weights_for_f32_linear := b }

/-- Finite-table lookup with a default, used to build concrete graphs. -/
def tblGet {α : Type} (l : List (Nat × α)) (d : α) : Nat → α :=
  fun i => match l.find? (fun pr => pr.1 == i) with
    | some pr => pr.2
    | none => d

/-- A `GEMMConfig` instance with the dense/linear argument layout, used to
exercise the generic (base-class) resolution paths. -/
def baseCfg : Cfg :=
  { kind := CfgKind.base, weight_idx := 1, bias_idx := some 2,
    act_idx := 0, fused_acts := ["relu.default", "hardtanh.default"],
    supported := [ConfigPrecisionType.FP32, ConfigPrecisionType.STATIC_QUANT,
                  ConfigPrecisionType.DYNAMIC_QUANT],
    enabled := [ConfigPrecisionType.FP32, ConfigPrecisionType.STATIC_QUANT,
                ConfigPrecisionType.DYNAMIC_QUANT],
    force_non_static_weights_for_f32_linear := false }

/-- Concrete graph: a static-quantized linear whose bias (node 3) is a
static parameter, whose activation operand (node 1) and weight operand
(node 2) are per-tensor dequantize nodes, whose weight source (node 4) is
not a parameter, and whose single user (node 5) is a quantize node. -/
def envStatic : Env :=
  { op := tblGet [(0, "call_function"), (1, "call_function"),
                  (2, "call_function"), (3, "placeholder"),
                  (4, "get_attr"), (5, "call_function")] "",
    target := tblGet [(0, "linear"), (1, "dequantize_per_tensor"),
                      (2, "dequantize_per_tensor"), (3, "b"), (4, "w"),
                      (5, "quantize_per_tensor")] "",
    params := tblGet [(3, true)] false,
    partitions := [], fuel := 4,
    commonOk := fun _ => true, depthwise := fun _ => false,
    weightQP := fun _ => none }

/-- The state of the `envStatic` graph. -/
def stStatic : St :=
  { args := tblGet [(0, [Arg.node 1, Arg.node 2, Arg.node 3]),
                    (1, [Arg.node 6]), (2, [Arg.node 4])] [],
    users := tblGet [(0, [5])] [],
    tags := [], cache := none }

/-- Concrete graph for the addmm source-partition adaptation: addmm node 5
with bias argument node 10, activation argument node 11 and weight
argument node 12, inside the linear partition with interior nodes 5, 12
and 6, boundary input 11 and single output 6. The backward-walked bias
argument (node 10) is not interior to the partition. -/
def envAddmm : Env :=
  { op := tblGet [(5, "call_function"), (6, "call_function"),
                  (10, "placeholder"), (11, "placeholder"),
                  (12, "placeholder")] "",
    target := tblGet [(5, "addmm"), (6, "linear_out")] "x",
    params := tblGet [(10, true), (12, true)] false,
    partitions := [], fuel := 4,
    commonOk := fun _ => true, depthwise := fun _ => false,
    weightQP := fun _ => none }

/-- The state of the `envAddmm` graph. -/
def stAddmm : St :=
  { args := tblGet [(5, [Arg.node 10, Arg.node 11, Arg.node 12]),
                    (6, [Arg.node 5])] [],
    users := tblGet [(5, [6])] [],
    tags := [], cache := none }

/-- The linear source partition of the `envAddmm` graph. -/
def pAddmm : SourcePartition :=
  { nodes := [5, 12, 6], input_nodes := [11], output_nodes := [6] }

/-- Concrete graph for the override-subset property: addmm node 5 as in
`envAddmm`, but the partition output (node 6) has a relu user (node 7)
that lies inside the partition. -/
def envForce : Env :=
  { op := tblGet [(5, "call_function"), (6, "call_function"),
                  (7, "call_function"), (10, "placeholder"),
                  (11, "placeholder"), (12, "placeholder")] "",
    target := tblGet [(5, "addmm"), (6, "linear_out"),
                      (7, "relu.default")] "x",
    params := tblGet [(10, true), (12, true)] false,
    partitions := [], fuel := 4,
    commonOk := fun _ => true, depthwise := fun _ => false,
    weightQP := fun _ => none }

/-- The state of the `envForce` graph. -/
def stForce : St :=
  { args := tblGet [(5, [Arg.node 10, Arg.node 11, Arg.node 12]),
                    (6, [Arg.node 5]), (7, [Arg.node 6])] [],
    users := tblGet [(5, [6]), (6, [7])] [],
    tags := [], cache := none }

/-- The linear source partition of the `envForce` graph. -/
def pForce : SourcePartition :=
  { nodes := [5, 7], input_nodes := [11, 12], output_nodes := [6] }

/-- Concrete graph: a per-channel weight dequantize node (node 2) with
exactly two input nodes — the weight parameter (node 3) and a scale node
(node 4), no zero-point node. -/
def envPC : Env :=
  { op := tblGet [(0, "call_function"), (2, "call_function"),
                  (3, "get_attr"), (4, "get_attr")] "",
    target := tblGet [(0, "linear"), (2, "dequantize_per_channel"),
                      (3, "w"), (4, "s")] "",
    params := tblGet [(3, true)] false,
    partitions := [], fuel := 4,
    commonOk := fun _ => true, depthwise := fun _ => false,
    weightQP := fun _ => none }

/-- Argument table of the `envPC` graph. -/
def argsPC : Nat → List Arg :=
  tblGet [(0, [Arg.node 9, Arg.node 2]), (2, [Arg.node 3, Arg.node 4])] []

/-- Concrete graph for the dynamic-quantization activation chain: node 0's
activation operand is the dequantize node 1, over the quantize node 2,
whose operands 1 and 2 are the getitem nodes 4 and 5; node 4's source is
the choose-qparams node 6, while node 5's source (node 9) is not a
choose-qparams node. -/
def envDyn : Env :=
  { op := tblGet [(0, "call_function"), (1, "call_function"),
                  (2, "call_function"), (3, "placeholder"),
                  (4, "call_function"), (5, "call_function"),
                  (6, "call_function"), (9, "call_function")] "",
    target := tblGet [(0, "linear"), (1, "dequantize_per_tensor_tensor"),
                      (2, "quantize_per_tensor_tensor"), (3, "x"),
                      (4, "getitem"), (5, "getitem"),
                      (6, "choose_qparams"), (9, "other_op")] "",
    params := tblGet [] false,
    partitions := [], fuel := 4,
    commonOk := fun _ => true, depthwise := fun _ => false,
    weightQP := fun _ => none }

/-- Argument table of the `envDyn` graph. -/
def argsDyn : Nat → List Arg :=
  tblGet [(0, [Arg.node 1]),
          (1, [Arg.node 2]),
          (2, [Arg.node 3, Arg.node 4, Arg.node 5]),
          (4, [Arg.node 6]),
          (5, [Arg.node 9])] []

/-- Concrete graph: a per-tensor weight dequantize node (node 2) over the
static parameter node 3. -/
def envPT : Env :=
  { op := tblGet [(0, "call_function"), (2, "call_function"),
                  (3, "get_attr")] "",
    target := tblGet [(0, "linear"), (2, "dequantize_per_tensor"),
                      (3, "w")] "",
    params := tblGet [(3, true)] false,
    partitions := [], fuel := 4,
    commonOk := fun _ => true, depthwise := fun _ => false,
    weightQP := fun _ => none }

/-- Argument table of the `envPT` graph. -/
def argsPT : Nat → List Arg :=
  tblGet [(0, [Arg.node 1, Arg.node 2]), (2, [Arg.node 3])] []

/-- Concrete graph: an fp32 convolution (node 0) with static weight
(node 2) and bias (node 3) parameters and a 3-element stride list, whose
generic dependency resolution succeeds. -/
def envConv : Env :=
  { op := tblGet [(0, "call_function"), (1, "placeholder"),
                  (2, "get_attr"), (3, "get_attr")] "",
    target := tblGet [(0, "convolution"), (1, "x"), (2, "w"), (3, "b")] "",
    params := tblGet [(2, true), (3, true)] false,
    partitions := [], fuel := 4,
    commonOk := fun _ => true, depthwise := fun _ => false,
    weightQP := fun _ => none }

/-- The state of the `envConv` graph: convolution arguments in the aten
layout (input, weight, bias, stride, padding, dilation, transposed,
output_padding, groups). -/
def stConv : St :=
  { args := tblGet [(0, [Arg.node 1, Arg.node 2, Arg.node 3,
                         Arg.intList [1, 1, 1], Arg.intList [0, 0, 0],
                         Arg.intList [1, 1, 1], Arg.bool false,
                         Arg.intList [0, 0, 0], Arg.int 1])] [],
    users := tblGet [] [],
    tags := [], cache := none }

/-- All three precision variants, the supported and enabled set used by the
concrete examples. -/
def allPrec : List ConfigPrecisionType :=
  [ConfigPrecisionType.FP32, ConfigPrecisionType.STATIC_QUANT,
   ConfigPrecisionType.DYNAMIC_QUANT]

theorem upd_upd {α : Type} (f : Nat → α) (n : Nat) (a b : α) :
    upd (upd f n a) n b = upd f n b := by
  funext m
  unfold upd
  by_cases h : m = n <;> simp [h]

theorem upd_same {α : Type} (f : Nat → α) (n : Nat) :
    upd f n (f n) = f := by
  funext m
  unfold upd
  by_cases h : m = n <;> simp [h]

theorem mem_dedupFirstAux (x : Nat) :
    ∀ (l seen : List Nat), x ∈ dedupFirstAux seen l ↔ x ∈ l ∧ x ∉ seen := by
  intro l
  induction l with
  | nil => intro seen; simp [dedupFirstAux]
  | cons a l ih =>
    intro seen
    unfold dedupFirstAux
    split
    case isTrue h =>
      rw [ih]
      constructor
      · rintro ⟨hl, hs⟩; exact ⟨List.mem_cons_of_mem a hl, hs⟩
      · rintro ⟨hal, hs⟩
        rcases List.mem_cons.mp hal with hxa | hl
        · exact absurd (hxa ▸ h) hs
        · exact ⟨hl, hs⟩
    case isFalse h =>
      constructor
      · intro hx
        rcases List.mem_cons.mp hx with hxa | hrest
        · exact ⟨hxa ▸ List.mem_cons_self a l, hxa ▸ h⟩
        · obtain ⟨hl, hs⟩ := (ih (a :: seen)).mp hrest
          exact ⟨List.mem_cons_of_mem a hl,
                 fun hmem => hs (List.mem_cons_of_mem a hmem)⟩
      · rintro ⟨hal, hs⟩
        rcases List.mem_cons.mp hal with hxa | hl
        · exact hxa ▸ List.mem_cons_self a _
        · by_cases hxa : x = a
          · exact hxa ▸ List.mem_cons_self a _
          · refine List.mem_cons_of_mem a ((ih (a :: seen)).mpr ⟨hl, ?_⟩)
            intro hmem
            rcases List.mem_cons.mp hmem with h1 | h2
            · exact hxa h1
            · exact hs h2

theorem mem_dedupFirst {x : Nat} {l : List Nat} :
    x ∈ dedupFirst l ↔ x ∈ l := by
  unfold dedupFirst
  rw [mem_dedupFirstAux]
  simp

/-- The source-partition adaptation restores the argument function, the
user function and the cache of the incoming state on every exit path. -/
theorem src_frame (env : Env) (cfg : Cfg) (st : St) (n : Nat)
    (p : SourcePartition) :
    (getDepsFromSrcPartition env cfg st n p).2.args = st.args ∧
    (getDepsFromSrcPartition env cfg st n p).2.users = st.users ∧
    (getDepsFromSrcPartition env cfg st n p).2.cache = st.cache := by
  simp only [getDepsFromSrcPartition, getDepsGeneric]
  split
  · exact ⟨rfl, rfl, rfl⟩
  · refine ⟨?_, ?_, rfl⟩
    · simp only [upd_upd, upd_same]
    · simp only [upd_upd, upd_same]

/-- The generic resolution leaves the argument function, the user function
and the cache unchanged (it only appends tags). -/
theorem generic_frame (env : Env) (cfg : Cfg) (st : St) (n : Nat) :
    (getDepsGeneric env cfg st n).2.args = st.args ∧
    (getDepsGeneric env cfg st n).2.users = st.users ∧
    (getDepsGeneric env cfg st n).2.cache = st.cache :=
  ⟨rfl, rfl, rfl⟩

/-- The result (validity and node list) of the source-partition adaptation
depends only on the argument and user functions of the state. -/
theorem src_fst_congr (env : Env) (cfg : Cfg) {st st' : St} (n : Nat)
    (p : SourcePartition) (ha : st'.args = st.args)
    (hu : st'.users = st.users) :
    (getDepsFromSrcPartition env cfg st' n p).1 =
    (getDepsFromSrcPartition env cfg st n p).1 := by
  simp only [getDepsFromSrcPartition, getDepsGeneric]
  rw [ha, hu]
  split <;> rfl

/-- The result of the generic resolution depends only on the argument and
user functions of the state. -/
theorem generic_fst_congr (env : Env) (cfg : Cfg) {st st' : St} (n : Nat)
    (ha : st'.args = st.args) (hu : st'.users = st.users) :
    (getDepsGeneric env cfg st' n).1 = (getDepsGeneric env cfg st n).1 := by
  simp only [getDepsGeneric]
  rw [ha, hu]

/-- `get_deps` restores the argument and user functions and preserves the
resolved source-partition index on every path. -/
theorem getDeps_frame (env : Env) (cfg : Cfg) (st : St) (n : Nat) :
    (getDeps env cfg st n).2.args = st.args ∧
    (getDeps env cfg st n).2.users = st.users ∧
    (getDeps env cfg st n).2.cache.getD env.partitions =
      st.cache.getD env.partitions := by
  unfold getDeps
  cases hk : cfg.kind
  case base | linear | conv =>
    exact ⟨rfl, rfl, rfl⟩
  case addmm | mm =>
    simp only [addmmGetDeps]
    cases hfind : (st.cache.getD env.partitions).reverse.find?
        (fun p => decide (n ∈ p.nodes))
    case none =>
      simp only [hfind]
      exact ⟨rfl, rfl, rfl⟩
    case some p =>
      simp only [hfind]
      have hfr := src_frame env cfg
        { st with cache := some (st.cache.getD env.partitions) } n p
      exact ⟨hfr.1, hfr.2.1, by rw [hfr.2.2]; rfl⟩

/-- The result of `get_deps` depends only on the argument function, the
user function and the resolved source-partition index of the state. -/
theorem getDeps_fst_congr (env : Env) (cfg : Cfg) {st st' : St} (n : Nat)
    (ha : st'.args = st.args) (hu : st'.users = st.users)
    (hc : st'.cache.getD env.partitions = st.cache.getD env.partitions) :
    (getDeps env cfg st' n).1 = (getDeps env cfg st n).1 := by
  unfold getDeps
  cases hk : cfg.kind
  case base | linear | conv =>
    exact generic_fst_congr env cfg n ha hu
  case addmm | mm =>
    simp only [addmmGetDeps, hc]
    cases hfind : (st.cache.getD env.partitions).reverse.find?
        (fun p => decide (n ∈ p.nodes))
    case none =>
      simp only [hfind]
      exact generic_fst_congr env cfg n ha hu
    case some p =>
      simp only [hfind]
      exact src_fst_congr env cfg n p ha hu

/-- C1: for every call to `AddmmConfig.get_deps_from_src_partition`, the
node's argument list and user set after the call are identical to their
values before the call, on every exit path — the early validation-failure
return as well as success or failure of the inner generic resolution. The
statement covers the whole argument and user functions, hence in
particular the adapted node's entries. -/
theorem srcPartitionRestoresArgsAndUsers (env : Env) (cfg : Cfg) (st : St)
    (n : Nat) (p : SourcePartition) :
    (getDepsFromSrcPartition env cfg st n p).2.args = st.args ∧
    (getDepsFromSrcPartition env cfg st n p).2.users = st.users :=
  ⟨(src_frame env cfg st n p).1, (src_frame env cfg st n p).2.1⟩

/-- C8: for a fixed graph and fixed candidate node, two successive calls to
`get_node_and_deps` return the same node list (hence the same node set):
the first call's restoration of arguments and users, the stability of the
resolved source-partition index, and the irrelevance of the tag side
effect to resolution make the second run agree with the first. -/
theorem clusterNodesDeterministic (env : Env) (cfg : Cfg) (st : St)
    (n : Nat) :
    (getNodeAndDeps env cfg ((getNodeAndDeps env cfg st n).2) n).1 =
    (getNodeAndDeps env cfg st n).1 := by
  have hf := getDeps_frame env cfg st n
  have hcong := getDeps_fst_congr env cfg n hf.1 hf.2.1 hf.2.2
  simp only [getNodeAndDeps]
  rw [hcong]

/-- C9: `get_node_and_deps` returns the candidate node followed by every
dependency node of `get_deps` and discards the validity flag; in the
concrete static-quantized graph `envStatic` the resolution is invalid
(the weight source is not a parameter) yet the returned dependency list
still contains the nodes found by the bias, activation and output
resolvers. -/
theorem clusterNodesShapeAndInvalidDeps :
    (∀ (env : Env) (cfg : Cfg) (st : St) (n : Nat),
      (getNodeAndDeps env cfg st n).1 = n :: (getDeps env cfg st n).1.2) ∧
    (getDeps envStatic baseCfg stStatic 0).1.1 = false ∧
    (getDeps envStatic baseCfg stStatic 0).1.2 ≠ [] :=
  ⟨fun _ _ _ _ => rfl, by decide, by decide⟩

/-- C10: for every call to the generic `get_deps` that passes the
supported-precision gate, every quantize or dequantize node of the
aggregated dependency list is tagged as an implicit q/dq node in the
resulting state — the statement assumes nothing about the aggregate
validity, so the tagging side effect also survives a failed resolution. -/
theorem qdqTaggingSurvivesInvalidResolution (env : Env) (cfg : Cfg)
    (st : St) (n : Nat)
    (hgate : detectPrecision env cfg st.args n ∈ cfg.supported)
    (d : Nat) (hd : d ∈ (getDepsGeneric env cfg st n).1.2)
    (hq : (isDequantId env d || isQuantId env d) = true) :
    d ∈ (getDepsGeneric env cfg st n).2.tags := by
  simp only [getDepsGeneric] at hd ⊢
  exact List.mem_append_right _ (List.mem_filter.mpr ⟨hd, hq⟩)

/-- C10 witness: in the `envStatic` graph the gate passes, the aggregate
validity is false, and the dequantize dependency node 1 is nevertheless
tagged. -/
theorem qdqTaggingSurvivesInvalidResolutionWitness :
    (getDepsGeneric envStatic baseCfg stStatic 0).1.1 = false ∧
    1 ∈ (getDepsGeneric envStatic baseCfg stStatic 0).2.tags :=
  ⟨by decide,
   qdqTaggingSurvivesInvalidResolution envStatic baseCfg stStatic 0
     (by decide) 1 (by decide) (by decide)⟩

/-- C2: evaluation of the code at the failing input. In the `envAddmm`
graph the backward-walked bias argument (node 10) is not interior to the
source partition, while the activation, weight and single-output
conditions all hold; the claim (and the comment over lines 510-511 of the
source) requires rejection with `(False, [])`, but because
`AddmmConfig.bias_idx` is `0` — falsy in Python — the guard
`self.bias_idx and ...` skips the bias check and the adaptation proceeds,
returning validity `true` with a non-empty node list. -/
theorem addmmBiasValidationSkipped :
    (getDepsFromSrcPartition envAddmm (addmmConfig allPrec false)
        stAddmm 5 pAddmm).1 = (true, [10, 12, 5, 6]) ∧
    findPartitionArgsWalk stAddmm.args pAddmm envAddmm.fuel 10 = 10 ∧
    10 ∉ pAddmm.nodes ∧
    11 ∈ pAddmm.input_nodes ∧
    12 ∈ pAddmm.nodes ++ pAddmm.input_nodes ∧
    pAddmm.output_nodes.length = 1 := by
  refine ⟨by decide, by decide, by decide, by decide, by decide, by decide⟩

/-- C5: for every node resolved as DYNAMIC_QUANT whose weight operand is a
per-tensor-quantized dequantize node over a static parameter,
`_get_weight_deps` returns validity false with an empty node list
(XNNPACK does not support per-tensor weights for dynamic activation
quantization). -/
theorem perTensorWeightDynamicQuantRejected (env : Env) (cfg : Cfg)
    (args : Nat → List Arg) (n dq w : Nat)
    (h1 : getInputNode args n cfg.weight_idx = some dq)
    (h2 : isDequantId env dq = true)
    (h3 : isPerTensorId env dq = true)
    (h4 : getInputNode args dq 0 = some w)
    (h5 : env.params w = true) :
    getWeightDepsBase env cfg args n ConfigPrecisionType.DYNAMIC_QUANT =
      (false, []) := by
  unfold getWeightDepsBase
  rw [if_neg (by decide :
    ¬(ConfigPrecisionType.DYNAMIC_QUANT = ConfigPrecisionType.FP32))]
  rw [h1]
  simp only [h2, Bool.not_true, Bool.false_eq_true, if_false]
  rw [h4]
  simp only [h5, Bool.not_true, Bool.false_eq_true, if_false]
  rw [if_pos ⟨h3, trivial⟩]

/-- C5 witness: in the `envPT` graph the weight operand (node 2) is a
per-tensor dequantize node over the parameter node 3, and resolution at
DYNAMIC_QUANT is rejected with no nodes. -/
theorem perTensorWeightDynamicQuantRejectedWitness :
    getInputNode argsPT 0 baseCfg.weight_idx = some 2 ∧
    isDequantId envPT 2 = true ∧
    isPerTensorId envPT 2 = true ∧
    getInputNode argsPT 2 0 = some 3 ∧
    envPT.params 3 = true ∧
    getWeightDepsBase envPT baseCfg argsPT 0
      ConfigPrecisionType.DYNAMIC_QUANT = (false, []) :=
  ⟨by decide, by decide, by decide, by decide, by decide,
   perTensorWeightDynamicQuantRejected envPT baseCfg argsPT 0 2 3
     (by decide) (by decide) (by decide) (by decide) (by decide)⟩

/-- C6: for every convolution node whose stride-list argument (index 3)
has length greater than 2, `ConvolutionConfig.check_constraints` returns
false, regardless of whether dependency resolution would otherwise
succeed. -/
theorem convStrideThreeRejected (env : Env) (cfg : Cfg) (st : St) (n : Nat)
    (s : List Int)
    (hs : (st.args n).get? 3 = some (Arg.intList s))
    (hlen : s.length > 2) :
    convCheckConstraints env cfg st n = false := by
  simp only [convCheckConstraints]
  split
  · rfl
  · rw [hs]
    simp only [asIntList]
    rw [if_pos hlen]

/-- C6 witness: the fp32 convolution of `envConv` passes the generic
dependency check yet is rejected because its stride list has three
entries. -/
theorem convStrideThreeRejectedWitness :
    (stConv.args 0).get? 3 = some (Arg.intList [1, 1, 1]) ∧
    ([1, 1, 1] : List Int).length > 2 ∧
    checkConstraints envConv (convConfig allPrec false) stConv 0 = true ∧
    convCheckConstraints envConv (convConfig allPrec false) stConv 0 =
      false :=
  ⟨by decide, by decide, by decide,
   convStrideThreeRejected envConv (convConfig allPrec false) stConv 0
     [1, 1, 1] (by decide) (by decide)⟩

/-- C7: for the same graph, node and linear source partition, every node
of the dependency set returned with the
`force_non_static_weights_for_f32_linear` override active also belongs to
the dependency set returned with the override inactive: the intersection
with the partition's interior nodes is contained in the union with them,
and the validation outcome does not depend on the override. -/
theorem forceNonStaticDepsSubset (env : Env) (cfg : Cfg) (st : St)
    (n : Nat) (p : SourcePartition) (x : Nat)
    (hx : x ∈ (getDepsFromSrcPartition env (setForce cfg true)
        st n p).1.2) :
    x ∈ (getDepsFromSrcPartition env (setForce cfg false) st n p).1.2 := by
  simp only [getDepsFromSrcPartition, getDepsGeneric, setForce] at hx ⊢
  split at hx
  · exact absurd hx (List.not_mem_nil x)
  · rw [if_neg (by assumption)]
    simp only [if_pos rfl] at hx
    rw [if_neg (by simp : ¬(false = true))]
    have hxp : x ∈ p.nodes := by
      have := List.mem_filter.mp hx
      exact of_decide_eq_true this.2
    exact mem_dedupFirst.mpr (List.mem_append_right _ hxp)

/-- C7 witness: in the `envForce` graph the relu node 7 belongs to both
the override-active and the override-inactive dependency sets. -/
theorem forceNonStaticDepsSubsetWitness :
    7 ∈ (getDepsFromSrcPartition envForce
        (setForce (addmmConfig allPrec false) true) stForce 5 pForce).1.2 ∧
    7 ∈ (getDepsFromSrcPartition envForce
        (setForce (addmmConfig allPrec false) false) stForce 5 pForce).1.2 :=
  ⟨by decide,
   forceNonStaticDepsSubset envForce (addmmConfig allPrec false) stForce
     5 pForce 7 (by decide)⟩

/-- C3 counterexample: in the `envPC` graph the per-channel weight
dequantize node 2 has exactly two input nodes — one extra operand beyond
the weight — yet weight resolution succeeds, and the returned closure
carries only that one extra operand (the scale, node 4) besides the
dequantize node and the weight; the claim's "fails whenever fewer than
two extra operands beyond the weight are present" and "contains both the
scale and the zero-point operand" are both false of the code, whose guard
is `len(all_input_nodes) < 2` and whose slice `[1:3]` may yield a single
element. -/
theorem perChannelSingleExtraOperandAccepted :
    getWeightDepsBase envPC baseCfg argsPC 0
      ConfigPrecisionType.STATIC_QUANT = (true, [2, 3, 4]) ∧
    isPerChannelId envPC 2 = true ∧
    (allInputNodes argsPC 2).length = 2 := by
  refine ⟨by decide, by decide, by decide⟩

/-- C3 as amended: for a node resolved with a quantized precision whose
weight dequantize wrapper is per-channel or per-channel-group quantized
(and not rejected by the per-tensor/dynamic clause), weight resolution
fails with no nodes when the wrapper has fewer than two input nodes in
total (that is, no extra operand beyond the weight), and otherwise
succeeds with the closure containing the wrapper's second and third input
nodes as available — always the scale, the zero-point only when a third
input node exists — in addition to the dequantize node and the weight
parameter. -/
theorem perChannelWeightDepsCharacterization (env : Env) (cfg : Cfg)
    (args : Nat → List Arg) (n dq w : Nat)
    (precision : ConfigPrecisionType)
    (hp : precision ≠ ConfigPrecisionType.FP32)
    (h1 : getInputNode args n cfg.weight_idx = some dq)
    (h2 : isDequantId env dq = true)
    (h3 : getInputNode args dq 0 = some w)
    (h4 : env.params w = true)
    (h5 : ¬(isPerTensorId env dq = true ∧
            precision = ConfigPrecisionType.DYNAMIC_QUANT))
    (h6 : (isPerChannelId env dq || isPerChannelGroupId env dq) = true) :
    getWeightDepsBase env cfg args n precision =
      if (allInputNodes args dq).length < 2 then (false, [])
      else (true, [dq, w] ++ ((allInputNodes args dq).drop 1).take 2) := by
  unfold getWeightDepsBase
  rw [if_neg hp, h1]
  simp only [h2, Bool.not_true, Bool.false_eq_true, if_false]
  rw [h3]
  simp only [h4, Bool.not_true, Bool.false_eq_true, if_false]
  rw [if_neg h5, if_pos h6]

/-- C3 witness: the amended characterization applied to the `envPC`
graph, whose wrapper has two input nodes, lands in the success branch. -/
theorem perChannelWeightDepsCharacterizationWitness :
    (ConfigPrecisionType.STATIC_QUANT ≠ ConfigPrecisionType.FP32) ∧
    getWeightDepsBase envPC baseCfg argsPC 0
        ConfigPrecisionType.STATIC_QUANT =
      (if (allInputNodes argsPC 2).length < 2 then (false, [])
       else (true, [2, 3] ++ ((allInputNodes argsPC 2).drop 1).take 2)) :=
  ⟨by decide,
   perChannelWeightDepsCharacterization envPC baseCfg argsPC 0 2 3
     ConfigPrecisionType.STATIC_QUANT (by decide) (by decide) (by decide)
     (by decide) (by decide) (by decide) (by decide)⟩

/-- C4 as amended: activation resolution at DYNAMIC_QUANT succeeds only
when the activation operand is a dequantize node over a quantize node
whose operands 1 and 2 (after affine extraction when applicable) are
getitem nodes and the FIRST getitem's source operand is a choose-qparams
node — the second getitem's source is not checked — and on success the
closure is exactly the dequantize node, the quantize node, both getitem
nodes and the first getitem's choose-qparams source; on failure the node
list is empty. -/
theorem dynamicActDepsCharacterization (env : Env) (cfg : Cfg)
    (args : Nat → List Arg) (n : Nat) :
    ((getActDeps env cfg args n ConfigPrecisionType.DYNAMIC_QUANT).1 =
        true →
      ∃ dq q g1 g2 cq,
        getInputNode args n cfg.act_idx = some dq ∧
        isDequantId env dq = true ∧
        getInputNode args dq 0 = some q ∧
        isQuantId env q = true ∧
        (qArgsOf env args q).get? 1 = some (Arg.node g1) ∧
        (qArgsOf env args q).get? 2 = some (Arg.node g2) ∧
        isGetitemId env g1 = true ∧
        isGetitemId env g2 = true ∧
        getInputNode args g1 0 = some cq ∧
        isQparamId env cq = true ∧
        (getActDeps env cfg args n ConfigPrecisionType.DYNAMIC_QUANT).2 =
          [dq, q, g1, g2, cq]) ∧
    ((getActDeps env cfg args n ConfigPrecisionType.DYNAMIC_QUANT).1 =
        false →
      (getActDeps env cfg args n ConfigPrecisionType.DYNAMIC_QUANT).2 =
        []) := by
  unfold getActDeps
  rw [if_neg (by decide :
    ¬(ConfigPrecisionType.DYNAMIC_QUANT = ConfigPrecisionType.FP32))]
  cases hdq : getInputNode args n cfg.act_idx with
  | none => simp
  | some dq =>
    cases hIsDq : isDequantId env dq with
    | false => simp [hIsDq]
    | true =>
      simp only [hIsDq, Bool.not_true, Bool.false_eq_true, if_false]
      rw [if_neg (by decide : ¬(ConfigPrecisionType.DYNAMIC_QUANT =
        ConfigPrecisionType.STATIC_QUANT))]
      cases hq : getInputNode args dq 0 with
      | none => simp
      | some q =>
        cases hIsQ : isQuantId env q with
        | false => simp [hIsQ]
        | true =>
          simp only [hIsQ, Bool.not_true, Bool.false_eq_true, if_false]
          cases hA1 : (qArgsOf env args q).get? 1 with
          | none => simp
          | some a1 =>
            cases a1 with
            | node g1 =>
              cases hA2 : (qArgsOf env args q).get? 2 with
              | none => simp
              | some a2 =>
                cases a2 with
                | node g2 =>
                  cases hg : isGetitemId env g1 && isGetitemId env g2 with
                  | false => simp [hg]
                  | true =>
                    simp only [hg, Bool.not_true, Bool.false_eq_true,
                      if_false]
                    cases hcq : getInputNode args g1 0 with
                    | none => simp
                    | some cq =>
                      cases hqp : isQparamId env cq with
                      | false => simp [hqp]
                      | true =>
                        simp only [hqp, if_true]
                        have hpair := hg
                        simp only [Bool.and_eq_true] at hpair
                        constructor
                        · intro _
                          exact ⟨dq, q, g1, g2, cq, rfl, hIsDq, hq, hIsQ,
                            hA1, hA2, hpair.1, hpair.2, hcq, hqp, rfl⟩
                        · intro hfalse
                          simp at hfalse
                | int v => simp
                | bool b => simp
                | intList l => simp
                | null => simp
            | int v => simp
            | bool b => simp
            | intList l => simp
            | null => simp

/-- C4 counterexample: in the `envDyn` graph the second getitem node
(node 5) has the non-choose-qparams node 9 as its source operand, yet
activation resolution at DYNAMIC_QUANT succeeds — only the first
getitem's source is checked at line 293 of the source, refuting the
claim's "each accessor's source operand is a choose-quantization-
parameters node". -/
theorem dynamicActSecondGetitemSourceUnchecked :
    getActDeps envDyn baseCfg argsDyn 0
      ConfigPrecisionType.DYNAMIC_QUANT = (true, [1, 2, 4, 5, 6]) ∧
    getInputNode argsDyn 5 0 = some 9 ∧
    isQparamId envDyn 9 = false ∧
    isGetitemId envDyn 5 = true := by
  refine ⟨by decide, by decide, by decide, by decide⟩

/-- C4 witness: the failure half of the characterization applied to the
`envPT` graph, whose activation operand is not a dequantize node. -/
theorem dynamicActDepsCharacterizationWitness :
    (getActDeps envPT baseCfg argsPT 0
        ConfigPrecisionType.DYNAMIC_QUANT).1 = false ∧
    (getActDeps envPT baseCfg argsPT 0
        ConfigPrecisionType.DYNAMIC_QUANT).2 = [] :=
  ⟨by decide,
   (dynamicActDepsCharacterization envPT baseCfg argsPT 0).2 (by decide)⟩
